import Mathlib

/-!
# Verification of the similarity/duplicate-detection engine

Shallow embedding of `src/similarity/similarity-detector.ts` from the
`react-native-reuse-finder` repository, together with proofs about the
specification's claims on the similarity scorer, the duplicate grouper and
the reuse scorer.

JavaScript numbers that can become `NaN` are modelled as `Option ℚ`
(`none` = NaN): the only sources of non-finite values in this code are
`0 / 0` divisions (every division in the detector has a numerator that is
zero whenever its denominator is zero, so infinities never arise).
Comparisons involving NaN are `false`, and arithmetic propagates NaN,
exactly as in JavaScript.
-/

unseal Rat.mul Rat.inv Rat.add Rat.sub

set_option maxRecDepth 40000

namespace ReuseFinder

/-- JavaScript number: `some q` is the finite value `q`, `none` is NaN. -/
abbrev JsNum := Option ℚ

/-- JS addition: NaN propagates. -/
def jadd : JsNum → JsNum → JsNum
  | some a, some b => some (a + b)
  | _, _ => none

/-- JS subtraction: NaN propagates. -/
def jsub : JsNum → JsNum → JsNum
  | some a, some b => some (a - b)
  | _, _ => none

/-- JS multiplication: NaN propagates. -/
def jmul : JsNum → JsNum → JsNum
  | some a, some b => some (a * b)
  | _, _ => none

/-- JS division: NaN propagates, and `x / 0` is NaN.  (In JavaScript
`x / 0` is `±∞` for `x ≠ 0`, but in the detector every division has a
numerator that is `0` whenever the denominator is `0`, so this case is
`0 / 0 = NaN`.) -/
def jdiv : JsNum → JsNum → JsNum
  | some a, some b => if b = 0 then none else some (a / b)
  | _, _ => none

/-- JS `<`: false when either operand is NaN. -/
def jlt : JsNum → JsNum → Bool
  | some a, some b => decide (a < b)
  | _, _ => false

/-- JS `>`: false when either operand is NaN. -/
def jgt : JsNum → JsNum → Bool
  | some a, some b => decide (b < a)
  | _, _ => false

/-- JS `>=`: false when either operand is NaN. -/
def jge : JsNum → JsNum → Bool
  | some a, some b => decide (b ≤ a)
  | _, _ => false

/-- `CodeSnippet` from `src/types/index.ts`.  The `SnippetType` enum is a
string enum, so `type` is modelled as a `String`; `startLine`/`endLine` are
integers; `size` and `churnWeight` are (finite) numbers. -/
structure CodeSnippet where
  id : String
  content : String
  normalizedContent : String
  type : String
  filePath : String
  startLine : Int
  endLine : Int
  size : ℚ
  hash : String
  simHash : String
  churnWeight : ℚ
deriving DecidableEq, Repr

/-- `RefactorSuggestion` from `src/types/index.ts` (the string-literal
union fields are modelled as strings). -/
structure RefactorSuggestion where
  type : String
  description : String
  targetModule : String
  codeTemplate : String
  estimatedEffort : String
  benefits : List String
deriving DecidableEq, Repr

/-- `DuplicateGroup` from `src/types/index.ts`. -/
structure DuplicateGroup where
  id : String
  snippets : List CodeSnippet
  similarity : JsNum
  reuseScore : JsNum
  suggestion : RefactorSuggestion
deriving DecidableEq, Repr

/-- Configuration of the `SimilarityDetector` class: the three constructor
fields `kGramSize = 7`, `minSimilarity = 0.8`, `fastMode = false`. -/
structure Config where
  kGramSize : ℕ
  minSimilarity : ℚ
  fastMode : Bool
deriving DecidableEq, Repr

/-- The constructor defaults `new SimilarityDetector(7, 0.8, false)`. -/
def defaultConfig : Config := { kGramSize := 7, minSimilarity := 4/5, fastMode := false }

/-- JS `hash[i]`: character at index `i`, or `undefined` (modelled `none`)
out of range.  The source compares `hash1[i] || ''` with `hash2[i] || ''`;
for `i < maxLength` at least one side is in range, so comparing the
`Option Char` values directly is equivalent. -/
def charAt (s : String) (i : ℕ) : Option Char := s.data[i]?

/-- Hamming distance loop of `calculateSimHashSimilarity`: the number of
positions `i < max(len₁, len₂)` where the two fingerprints differ. -/
def simHashDistance (hash1 hash2 : String) : ℕ :=
  ((List.range (max hash1.length hash2.length)).filter
    (fun i => charAt hash1 i ≠ charAt hash2 i)).length

/-- `calculateSimHashSimilarity` (similarity-detector.ts lines 147-159):
`1 - distance / maxLength`.  Note there is no guard for `maxLength == 0`:
two empty fingerprints give `1 - 0/0 = NaN`. -/
def calculateSimHashSimilarity (hash1 hash2 : String) : JsNum :=
  jsub (some 1)
    (jdiv (some (simHashDistance hash1 hash2 : ℚ))
      (some ((max hash1.length hash2.length : ℕ) : ℚ)))

/-- JS `\s`-style whitespace test (restricted to the ASCII whitespace that
occurs in normalized code text). -/
def isWs (c : Char) : Bool := c.isWhitespace

mutual

/-- `content.split(/\s+/)`, main state: scanning a token (`acc` is the
token read so far). -/
def splitWsAux : List Char → List Char → List String
  | [], acc => [String.mk acc]
  | c :: cs, acc =>
    if isWs c then String.mk acc :: splitWsSkip cs
    else splitWsAux cs (acc ++ [c])

/-- `content.split(/\s+/)`, skipping state: inside a whitespace run. -/
def splitWsSkip : List Char → List String
  | [] => [""]
  | c :: cs => if isWs c then splitWsSkip cs else splitWsAux cs [c]

end

/-- JS `content.split(/\s+/)`: splits on maximal whitespace runs; a
leading (resp. trailing) run contributes an empty first (resp. last)
piece, and `""` splits to `[""]`. -/
def splitWs (content : String) : List String := splitWsAux content.data []

/-- `generateShingles` (lines 184-199): the set of `' '`-joined windows of
`kGramSize` consecutive whitespace tokens; the loop runs
`min (tokens.length - kGramSize + 1) 100` times (the `maxShingles = 100`
counter counts loop iterations, not distinct set elements), and the JS
`Set` keeps distinct strings, modelled by `List.toFinset`. -/
def generateShingles (kGramSize : ℕ) (content : String) : Finset String :=
  let tokens := splitWs content
  ((List.range (min (tokens.length + 1 - kGramSize) 100)).map
    (fun i => " ".intercalate ((tokens.drop i).take kGramSize))).toFinset

/-- `calculateShingleSimilarity` (lines 161-182): early exit when the
length ratio differs by more than 70%, otherwise the Jaccard index of the
two shingle sets (`intersection / (size₁ + size₂ - intersection)`). -/
def calculateShingleSimilarity (kGramSize : ℕ) (content1 content2 : String) : JsNum :=
  let lengthDiff : ℕ := ((content1.length : ℤ) - (content2.length : ℤ)).natAbs
  let maxLength : ℕ := max content1.length content2.length
  if jgt (jdiv (some (lengthDiff : ℚ)) (some (maxLength : ℚ))) (some (7/10)) then
    some 0
  else
    let shingles1 := generateShingles kGramSize content1
    let shingles2 := generateShingles kGramSize content2
    let intersection := (shingles1 ∩ shingles2).card
    let union := shingles1.card + shingles2.card - intersection
    jdiv (some (intersection : ℚ)) (some (union : ℚ))

/-- `levenshteinDistance` (lines 207-225).  The source fills the standard
dynamic-programming matrix `matrix[j][i] = min(deletion, insertion,
substitution)` for the classic unit-cost Levenshtein recurrence; we embed
that function via Mathlib's row-based `levenshtein` with the unit cost
structure (delete = insert = 1, substitute = 0/1), which computes exactly
this recurrence. -/
def levenshteinDistance (str1 str2 : String) : ℕ :=
  levenshtein Levenshtein.defaultCost str1.data str2.data

/-- `calculateEditDistanceSimilarity` (lines 201-205):
`1 - distance / maxLength` (NaN when both strings are empty). -/
def calculateEditDistanceSimilarity (content1 content2 : String) : JsNum :=
  jsub (some 1)
    (jdiv (some (levenshteinDistance content1 content2 : ℚ))
      (some ((max content1.length content2.length : ℕ) : ℚ)))

/-- `calculateSimilarity` (lines 106-145): exact hash match returns 1.0;
fingerprint similarity above 0.9 is returned directly; fast mode returns
the fingerprint similarity; fingerprint below 0.5 is returned directly;
otherwise the shingle similarity is computed — below 0.3 the mean of the
two is returned, otherwise the weighted blend
`0.5·simHash + 0.3·shingle + 0.2·editDistance`. -/
def calculateSimilarity (cfg : Config) (snippet1 snippet2 : CodeSnippet) : JsNum :=
  if snippet1.hash = snippet2.hash then some 1
  else
    let simHashSimilarity := calculateSimHashSimilarity snippet1.simHash snippet2.simHash
    if jgt simHashSimilarity (some (9/10)) then simHashSimilarity
    else if cfg.fastMode then simHashSimilarity
    else if jlt simHashSimilarity (some (1/2)) then simHashSimilarity
    else
      let shingleSimilarity :=
        calculateShingleSimilarity cfg.kGramSize snippet1.normalizedContent snippet2.normalizedContent
      if jlt shingleSimilarity (some (3/10)) then
        jdiv (jadd simHashSimilarity shingleSimilarity) (some 2)
      else
        let editDistanceSimilarity :=
          calculateEditDistanceSimilarity snippet1.normalizedContent snippet2.normalizedContent
        jadd (jadd (jmul simHashSimilarity (some (1/2))) (jmul shingleSimilarity (some (3/10))))
          (jmul editDistanceSimilarity (some (1/5)))

/-- `suggestTargetModule` (lines 271-284): fixed category→folder table
with default `shared/utils`. -/
def suggestTargetModule (type : String) : String :=
  if type = "component" then "shared/components"
  else if type = "hook" then "shared/hooks"
  else if type = "stylesheet" then "shared/styles"
  else if type = "utility" then "shared/utils"
  else if type = "animation" then "shared/animations"
  else if type = "navigation" then "shared/navigation"
  else if type = "api_client" then "shared/api"
  else if type = "function" then "shared/utils"
  else "shared/utils"

/-- `Math.round` for the (finite, non-negative) values appearing in the
suggestion text: round half up. -/
def jsRound (q : ℚ) : ℤ := ⌊q + 1/2⌋

/-- `generateCodeTemplate` (lines 286-290): a fixed placeholder string
mentioning the first snippet's type. -/
def generateCodeTemplate (firstType : String) : String :=
  "// Generated template for " ++ firstType ++ "\n// Replace with actual implementation"

/-- `generateSuggestion` (lines 235-269).  The source reads
`snippets[0]`; it is only ever called with a non-empty list, and we read
the head with default values for the (unreachable) empty case. -/
def generateSuggestion (snippets : List CodeSnippet) (similarity : JsNum) : RefactorSuggestion :=
  let firstType := ((snippets.head?).map (fun s => s.type)).getD ""
  let targetModule := suggestTargetModule firstType
  let suggestionType :=
    if jgt similarity (some (19/20)) then "extract"
    else if jgt similarity (some (17/20)) then "consolidate"
    else "parameterize"
  let description :=
    if jgt similarity (some (19/20)) then "Extract " ++ firstType ++ " to shared module"
    else if jgt similarity (some (17/20)) then
      "Consolidate similar " ++ firstType ++ "s with parameters"
    else "Parameterize " ++ firstType ++ " for reuse"
  let estimatedEffort :=
    if jgt similarity (some (19/20)) then "low"
    else if jgt similarity (some (17/20)) then "medium"
    else "high"
  { type := suggestionType
    description := description
    targetModule := targetModule
    codeTemplate := generateCodeTemplate firstType
    estimatedEffort := estimatedEffort
    benefits :=
      ["Reduce duplication by " ++
         toString (jsRound ((1 - 1/(snippets.length : ℚ)) * 100)) ++ "%",
       "Improve maintainability",
       "Enable consistent behavior across components"] }

/-- `calculateReuseScore` (lines 227-233):
`totalSize * similarity * duplicationCount * avgChurnWeight`. -/
def calculateReuseScore (snippets : List CodeSnippet) (similarity : JsNum) : JsNum :=
  let totalSize : ℚ := (snippets.map (fun s => s.size)).sum
  let duplicationCount : ℚ := snippets.length
  let avgChurnWeight : JsNum :=
    jdiv (some ((snippets.map (fun s => s.churnWeight)).sum)) (some duplicationCount)
  jmul (jmul (jmul (some totalSize) similarity) (some duplicationCount)) avgChurnWeight

/-- `createDuplicateGroup` (lines 304-313). -/
def createDuplicateGroup (snippets : List CodeSnippet) (similarity : JsNum) : DuplicateGroup :=
  { id := "group-" ++ ((snippets.head?).map (fun s => s.id)).getD ""
    snippets := snippets
    similarity := similarity
    reuseScore := calculateReuseScore snippets similarity
    suggestion := generateSuggestion snippets similarity }

/-- One step of the candidate scan in `findSimilarSnippets` (lines 66-87):
the four `continue` guards, then the threshold test `similarity >=
minSimilarity`, accumulating the member list and the similarity total.
The similarity scorer is a parameter (`findSimilarSnippets` instantiates
it with `calculateSimilarity`). -/
def scanStep (score : CodeSnippet → CodeSnippet → JsNum) (minSimilarity : ℚ)
    (target : CodeSnippet) (st : List CodeSnippet × JsNum) (snippet : CodeSnippet) :
    List CodeSnippet × JsNum :=
  if snippet.type ≠ target.type then st
  else if snippet.id = target.id then st
  else if snippet.filePath = target.filePath ∧ snippet.startLine = target.startLine ∧
      snippet.endLine = target.endLine then st
  else if snippet.filePath = target.filePath ∧
      (snippet.startLine - target.startLine).natAbs < 5 then st
  else
    let similarity := score target snippet
    if jge similarity (some minSimilarity) then (st.1 ++ [snippet], jadd st.2 similarity)
    else st

/-- `findSimilarSnippets` (lines 58-104), parametrized by the pairwise
scorer: scan `allSnippets[startIndex+1 ..]`, starting from
`similar = [target]` and `totalSimilarity = 1.0`; return `null` unless at
least one candidate joined; otherwise build the group with
`avgSimilarity = totalSimilarity / similar.length`. -/
def findSimilarSnippetsWith (score : CodeSnippet → CodeSnippet → JsNum) (minSimilarity : ℚ)
    (target : CodeSnippet) (allSnippets : List CodeSnippet) (startIndex : ℕ) :
    Option DuplicateGroup :=
  let st := (allSnippets.drop (startIndex + 1)).foldl (scanStep score minSimilarity target)
    ([target], some 1)
  if st.1.length ≤ 1 then none
  else
    let avgSimilarity := jdiv st.2 (some (st.1.length : ℚ))
    some { id := "group-" ++ target.id
           snippets := st.1
           similarity := avgSimilarity
           reuseScore := calculateReuseScore st.1 avgSimilarity
           suggestion := generateSuggestion st.1 avgSimilarity }

/-- `findSimilarSnippets` with the scorer of the source
(`this.calculateSimilarity`). -/
def findSimilarSnippets (cfg : Config) (target : CodeSnippet) (allSnippets : List CodeSnippet)
    (startIndex : ℕ) : Option DuplicateGroup :=
  findSimilarSnippetsWith (calculateSimilarity cfg) cfg.minSimilarity target allSnippets startIndex

/-- The dedup filter of `findSimilarSnippetsOptimized` (lines 325-327):
`arr.findIndex(s => s.id === snippet.id) === index` keeps the first
occurrence of each id. -/
def dedupByIdAux : List CodeSnippet → List String → List CodeSnippet
  | [], _ => []
  | s :: rest, seen =>
    if s.id ∈ seen then dedupByIdAux rest seen
    else s :: dedupByIdAux rest (s.id :: seen)

/-- `group.snippets.filter((snippet, index, arr) => arr.findIndex(s =>
s.id === snippet.id) === index)`. -/
def dedupById (l : List CodeSnippet) : List CodeSnippet := dedupByIdAux l []

/-- One iteration of the loop of `findSimilarSnippetsOptimized`
(lines 319-338), over the index `i`; the state is the accumulated group
list and the local `processed` id set. -/
def fssOptStep (score : CodeSnippet → CodeSnippet → JsNum) (minSimilarity : ℚ)
    (snippets : List CodeSnippet) (st : List DuplicateGroup × List String) (i : ℕ) :
    List DuplicateGroup × List String :=
  match snippets[i]? with
  | none => st
  | some sᵢ =>
    if sᵢ.id ∈ st.2 then st
    else
      match findSimilarSnippetsWith score minSimilarity sᵢ snippets i with
      | none => st
      | some group =>
        if group.snippets.length > 1 then
          if (dedupById group.snippets).length > 1 then
            (st.1 ++ [{ group with snippets := dedupById group.snippets }],
             st.2 ++ (dedupById group.snippets).map (fun s => s.id))
          else st
        else st

/-- `findSimilarSnippetsOptimized` (lines 315-341), parametrized by the
pairwise scorer. -/
def findSimilarSnippetsOptimizedWith (score : CodeSnippet → CodeSnippet → JsNum)
    (minSimilarity : ℚ) (snippets : List CodeSnippet) : List DuplicateGroup :=
  ((List.range snippets.length).foldl (fssOptStep score minSimilarity snippets) ([], [])).1

/-- `findSimilarSnippetsOptimized` with the scorer of the source. -/
def findSimilarSnippetsOptimized (cfg : Config) (snippets : List CodeSnippet) :
    List DuplicateGroup :=
  findSimilarSnippetsOptimizedWith (calculateSimilarity cfg) cfg.minSimilarity snippets

/-- One step of the JS `Map` grouping used by `groupByHash` (lines
293-302) and the by-type pre-filter (lines 18-24): append the snippet to
its key's bucket, creating the bucket at the end on first sight of the
key (JS `Map` iteration order is key-insertion order). -/
def insertGrouped (key : CodeSnippet → String) (acc : List (String × List CodeSnippet))
    (s : CodeSnippet) : List (String × List CodeSnippet) :=
  if acc.any (fun p => p.1 = key s) then
    acc.map (fun p => if p.1 = key s then (p.1, p.2 ++ [s]) else p)
  else acc ++ [(key s, [s])]

/-- Grouping a snippet list by a string key, in key-insertion order
(used with `·.hash` for `groupByHash` and `·.type` for
`snippetsByType`). -/
def groupByKey (key : CodeSnippet → String) (l : List CodeSnippet) :
    List (String × List CodeSnippet) :=
  l.foldl (insertGrouped key) []

/-- The hash-bucket phase of `findDuplicates` (lines 36-42): every bucket
with more than one member becomes a group with similarity `1.0`, and its
members are marked processed. -/
def pushHashGroup (st : List DuplicateGroup × List String) (p : String × List CodeSnippet) :
    List DuplicateGroup × List String :=
  if p.2.length > 1 then
    (st.1 ++ [createDuplicateGroup p.2 (some 1)], st.2 ++ p.2.map (fun s => s.id))
  else st

/-- The per-type body of the `findDuplicates` loop (lines 30-53): skip
types with fewer than 2 snippets; hash-bucket groups first; then run the
optimized similarity detection on the snippets not yet processed, and mark
the members of the returned groups processed. -/
def processType (cfg : Config) (st : List DuplicateGroup × List String)
    (p : String × List CodeSnippet) : List DuplicateGroup × List String :=
  let typeSnippets := p.2
  if typeSnippets.length < 2 then st
  else
    let st1 := (groupByKey (fun s => s.hash) typeSnippets).foldl pushHashGroup st
    let remainingSnippets := typeSnippets.filter (fun s => !(st1.2.contains s.id))
    if remainingSnippets.length > 1 then
      let similarityGroups := findSimilarSnippetsOptimized cfg remainingSnippets
      (st1.1 ++ similarityGroups,
       similarityGroups.foldl (fun acc g => acc ++ g.snippets.map (fun s => s.id)) st1.2)
    else st1

/-- JS `groups.sort((a, b) => b.reuseScore - a.reuseScore)` keeps `g1`
before `g2` when the comparator value is `≤ 0`, i.e. when
`g2.reuseScore ≤ g1.reuseScore`; a NaN comparator value is treated as `0`
(keep the order).  The reuse scores produced by the detector are never
NaN. -/
def groupLe (g1 g2 : DuplicateGroup) : Bool :=
  match g1.reuseScore, g2.reuseScore with
  | some a, some b => decide (b ≤ a)
  | _, _ => true

/-- Stable insertion used to model the (stable) JS `Array.prototype.sort`. -/
def insertSorted (g : DuplicateGroup) : List DuplicateGroup → List DuplicateGroup
  | [] => [g]
  | h :: t => if groupLe g h then g :: h :: t else h :: insertSorted g t

/-- `groups.sort((a, b) => b.reuseScore - a.reuseScore)`: stable sort by
descending reuse score.  With a consistent comparator, the JS sort result
is the unique stable ordering, which this insertion sort computes. -/
def sortByReuseScore (l : List DuplicateGroup) : List DuplicateGroup :=
  l.foldr insertSorted []

/-- `findDuplicates` (lines 14-56): group by type; within each type,
hash-bucket groups then optimized similarity groups over the unprocessed
remainder (the `processed` set persists across types); finally sort by
descending reuse score. -/
def findDuplicates (cfg : Config) (snippets : List CodeSnippet) : List DuplicateGroup :=
  if snippets.length = 0 then []
  else
    sortByReuseScore
      ((groupByKey (fun s => s.type) snippets).foldl (processType cfg) ([], [])).1

/-! ## Concrete fragments used as witnesses and counterexamples -/

/-- Helper to build a concrete snippet (content = normalizedContent, a
6-line location). -/
def mkSnip (id ty fp : String) (sl : Int) (sz ch : ℚ) (h sh nc : String) : CodeSnippet :=
  { id := id, content := nc, normalizedContent := nc, type := ty, filePath := fp,
    startLine := sl, endLine := sl + 5, size := sz, hash := h, simHash := sh, churnWeight := ch }

/-- Scenario-B-style fragment: fingerprint of 25 characters. -/
def snipB1 : CodeSnippet :=
  mkSnip "a1" "function" "f1.ts" 1 100 1 "h1" "aaaaaaaaaaaaaaaaaaaaaaaaa" "a b c d e f g h"

/-- Scenario-B-style fragment: fingerprint differing from `snipB1` in
exactly 2 of 25 positions (fingerprint similarity `23/25 = 0.92`), same
normalized content, different content hash. -/
def snipB2 : CodeSnippet :=
  mkSnip "b1" "function" "f2.ts" 1 100 1 "h2" "aaaaaaaaaaaaaaaaaaaaaaabb" "a b c d e f g h"

/-- Partition-test fragment A: fingerprint at Hamming distance 8 from
`snipP2`'s and 4 from `snipP3`'s (out of 10). -/
def snipP1 : CodeSnippet :=
  mkSnip "a2" "function" "g1.ts" 1 100 1 "k1" "xxxxcccccc" "a b c d e f g h"

/-- Partition-test fragment B: fingerprint at Hamming distance 4 from
`snipP3`'s. -/
def snipP2 : CodeSnippet :=
  mkSnip "b2" "function" "g2.ts" 1 100 1 "k2" "ccccyyyycc" "a b c d e f g h"

/-- Partition-test fragment C: scores exactly 0.8 against both `snipP1`
and `snipP2` (weighted branch: `0.5·0.6 + 0.3·1 + 0.2·1`), while
`snipP1`/`snipP2` score 0.2 against each other. -/
def snipP3 : CodeSnippet :=
  mkSnip "c2" "function" "g3.ts" 1 100 1 "k3" "cccccccccc" "a b c d e f g h"

/-- The fast-mode configuration (`new SimilarityDetector(7, 0.8, true)`). -/
def fastConfig : Config := { kGramSize := 7, minSimilarity := 4/5, fastMode := true }

/-- 120 characters of identical raw text for Scenario A. -/
def longText : String := String.mk (List.replicate 120 'q')

/-- Scenario-A fragment: 120 chars, churn weight 1. -/
def snipA1 : CodeSnippet := mkSnip "a6" "function" "m1.ts" 1 120 1 "hh" "ffff" longText

/-- Scenario-A fragment: identical content hash to `snipA1`. -/
def snipA2 : CodeSnippet := mkSnip "b6" "function" "m2.ts" 1 120 1 "hh" "ffff" longText

/-- Exact-duplicate pair used for the exact-match-invariant witness. -/
def snipE1 : CodeSnippet := mkSnip "e1" "hook" "n1.ts" 1 80 1 "zz" "gggg" "use x"

/-- Exact-duplicate pair used for the exact-match-invariant witness. -/
def snipE2 : CodeSnippet := mkSnip "e2" "hook" "n2.ts" 1 80 1 "zz" "gggg" "use x"

/-- Configuration with `minSimilarity = 0.95` for the threshold-boundary
witness. -/
def thresholdConfig : Config := { kGramSize := 7, minSimilarity := 19/20, fastMode := false }

/-- Threshold-boundary anchor: fingerprint of 20 characters. -/
def snipT1 : CodeSnippet :=
  mkSnip "t8" "function" "p1.ts" 1 100 1 "w1" "aaaaaaaaaaaaaaaaaaaa" "x"

/-- Threshold-boundary candidate: fingerprint at Hamming distance 1 from
`snipT1`'s, so the pair scores exactly `19/20 = minSimilarity`. -/
def snipT2 : CodeSnippet :=
  mkSnip "c8" "function" "p2.ts" 1 100 1 "w2" "aaaaaaaaaaaaaaaaaaab" "x"

/-- Anchor-clustering witness fragments (scores are supplied by
`anchorScore`). -/
def snipC1 : CodeSnippet := mkSnip "ca" "function" "q1.ts" 1 100 1 "u1" "s1" "t a"

/-- Anchor-clustering witness fragment B. -/
def snipC2 : CodeSnippet := mkSnip "cb" "function" "q2.ts" 1 100 1 "u2" "s2" "t b"

/-- Anchor-clustering witness fragment C. -/
def snipC3 : CodeSnippet := mkSnip "cc" "function" "q3.ts" 1 100 1 "u3" "s3" "t c"

/-- A concrete pairwise scorer realizing Scenario C's score table
(`score(A,B) = 0.9`, `score(B,C) = 0.9`, `score(A,C) = 0.5`). -/
def anchorScore (s1 s2 : CodeSnippet) : JsNum :=
  if s1.id = "ca" ∧ s2.id = "cb" then some (9/10)
  else if s1.id = "cb" ∧ s2.id = "cc" then some (9/10)
  else if s1.id = "ca" ∧ s2.id = "cc" then some (1/2)
  else some 0

/-- The Scenario-A hash-bucket group (`createDuplicateGroup` applied to
the bucket of `snipA1`/`snipA2`). -/
def groupA : DuplicateGroup := createDuplicateGroup [snipA1, snipA2] (some 1)

/-- The group Scenario C expects: anchor `A` first, member `B`, aggregate
similarity `(1.0 + 0.9) / 2 = 0.95`, and the reuse score/suggestion
derived from that. -/
def anchorGroup (A B : CodeSnippet) : DuplicateGroup :=
  { id := "group-" ++ A.id
    snippets := [A, B]
    similarity := some (19/20)
    reuseScore := calculateReuseScore [A, B] (some (19/20))
    suggestion := generateSuggestion [A, B] (some (19/20)) }

/-! ## Helper lemmas about the candidate scan -/

/-- A candidate passing all four `continue` guards and the threshold test
is appended to the member list and its score added to the total. -/
theorem scanStep_accept (score : CodeSnippet → CodeSnippet → JsNum) (m : ℚ)
    (target s : CodeSnippet) (st : List CodeSnippet × JsNum)
    (htype : s.type = target.type) (hid : s.id ≠ target.id)
    (hfp : s.filePath ≠ target.filePath)
    (hge : jge (score target s) (some m) = true) :
    scanStep score m target st s = (st.1 ++ [s], jadd st.2 (score target s)) := by
  have h3 : ¬ (s.filePath = target.filePath ∧ s.startLine = target.startLine ∧
      s.endLine = target.endLine) := fun h => hfp h.1
  have h4 : ¬ (s.filePath = target.filePath ∧
      (s.startLine - target.startLine).natAbs < 5) := fun h => hfp h.1
  simp only [scanStep, if_neg (not_not_intro htype), if_neg hid, if_neg h3, if_neg h4,
    if_pos hge]

/-- A candidate passing the guards but scoring below the threshold leaves
the scan state unchanged. -/
theorem scanStep_reject (score : CodeSnippet → CodeSnippet → JsNum) (m : ℚ)
    (target s : CodeSnippet) (st : List CodeSnippet × JsNum)
    (htype : s.type = target.type) (hid : s.id ≠ target.id)
    (hfp : s.filePath ≠ target.filePath)
    (hge : jge (score target s) (some m) = false) :
    scanStep score m target st s = st := by
  have h3 : ¬ (s.filePath = target.filePath ∧ s.startLine = target.startLine ∧
      s.endLine = target.endLine) := fun h => hfp h.1
  have h4 : ¬ (s.filePath = target.filePath ∧
      (s.startLine - target.startLine).natAbs < 5) := fun h => hfp h.1
  simp only [scanStep, if_neg (not_not_intro htype), if_neg hid, if_neg h3, if_neg h4,
    hge, Bool.false_eq_true, if_false]

/-! ## C4: behaviour of the fingerprint comparison on empty fingerprints -/

/-- C4 counterexample: contrary to the claim, `calculateSimHashSimilarity`
applied to two empty fingerprint strings does NOT return 1.0 — there is no
`maxLength == 0` guard in the code. -/
theorem c4_counterexample : calculateSimHashSimilarity "" "" ≠ some 1 := by decide

/-- C4 (amended): on two empty fingerprints the comparison computes
`1 - 0/0`, i.e. NaN (modelled `none`), not the defined value 1.0. -/
theorem c4_theorem : calculateSimHashSimilarity "" "" = none := by decide

/-! ## C9: length-ratio short-circuit of the shingle similarity -/

/-- C9: when the two normalized texts' lengths differ by more than 70%
(`|len(a)-len(b)| / max(len(a),len(b)) > 0.7`), the shingle similarity is
exactly 0, returned by the early length-ratio check. -/
theorem c9_theorem (kGramSize : ℕ) (content1 content2 : String)
    (h : (7/10 : ℚ) < ((((content1.length : ℤ) - (content2.length : ℤ)).natAbs : ℚ) /
      ((max content1.length content2.length : ℕ) : ℚ))) :
    calculateShingleSimilarity kGramSize content1 content2 = some 0 := by
  have hmax : ((max content1.length content2.length : ℕ) : ℚ) ≠ 0 := by
    intro h0
    rw [h0, div_zero] at h
    exact absurd h (by norm_num)
  have hcond : jgt (jdiv (some ((((content1.length : ℤ) - (content2.length : ℤ)).natAbs : ℕ) : ℚ))
      (some ((max content1.length content2.length : ℕ) : ℚ))) (some (7/10)) = true := by
    simp only [jdiv, if_neg hmax, jgt, decide_eq_true_eq]
    exact h
  simp only [calculateShingleSimilarity, hcond, if_true]

/-- C9 witness: lengths 10 and 1 differ by 90% > 70%, so the shingle
similarity is 0. -/
theorem c9_witness : calculateShingleSimilarity 7 "aaaaaaaaaa" "a" = some 0 :=
  c9_theorem 7 "aaaaaaaaaa" "a" (by decide)

/-! ## C3: what fast mode actually computes -/

/-- C3 counterexample: in fast mode, a pair with fingerprint similarity
0.6 (between 0.5 and 0.9), shingle similarity 1 and edit-distance
similarity 1 gets score 0.6, not the claimed cascade value
`0.5·0.6 + 0.3·1 + 0.2·1 = 0.8`: fast mode never reaches the shingle or
edit-distance metrics. -/
theorem c3_counterexample :
    fastConfig.fastMode = true ∧
    snipP1.hash ≠ snipP3.hash ∧
    calculateSimHashSimilarity snipP1.simHash snipP3.simHash = some (3/5) ∧
    ((1/2 : ℚ) ≤ 3/5 ∧ ¬ ((9/10 : ℚ) < 3/5)) ∧
    calculateShingleSimilarity fastConfig.kGramSize snipP1.normalizedContent
      snipP3.normalizedContent = some 1 ∧
    calculateEditDistanceSimilarity snipP1.normalizedContent snipP3.normalizedContent = some 1 ∧
    calculateSimilarity fastConfig snipP1 snipP3 = some (3/5) ∧
    (3/5 : ℚ) ≠ 1/2 * (3/5) + 3/10 * 1 + 1/5 * 1 := by
  refine ⟨rfl, by decide, by decide, by norm_num, by decide, by decide, by decide, by norm_num⟩

/-- C3 (amended): in fast mode the score cascade is only two steps — 1.0
on an exact hash match, otherwise the fingerprint similarity is returned
directly, whatever its value; shingle and edit-distance similarity are
never consulted.  (The claimed four-step cascade is full mode's
behaviour.) -/
theorem c3_theorem (cfg : Config) (s1 s2 : CodeSnippet) (hfast : cfg.fastMode = true)
    (hh : s1.hash ≠ s2.hash) :
    calculateSimilarity cfg s1 s2 = calculateSimHashSimilarity s1.simHash s2.simHash := by
  simp only [calculateSimilarity, if_neg hh, hfast, if_true]
  split <;> rfl

/-- C3 witness: the fast-mode configuration on the concrete 0.6 pair. -/
theorem c3_witness :
    calculateSimilarity fastConfig snipP1 snipP3 =
      calculateSimHashSimilarity snipP1.simHash snipP3.simHash :=
  c3_theorem fastConfig snipP1 snipP3 rfl (by decide)

/-! ## C1: what full mode actually computes -/

/-- C1 counterexample: a same-category pair with no hash match,
fingerprint similarity 0.92, shingle similarity 1 and edit-distance
similarity 1.  The claimed full-mode weighted sum gives
`0.4·0 + 0.3·0.92 + 0.2·1 + 0.1·1 = 0.576`, but the code returns 0.92
(the `> 0.9` early return), which is moreover ≥ the default
`minSimilarity = 0.8`, so the two fragments ARE grouped — both parts of
the claim fail. -/
theorem c1_counterexample :
    snipB1.hash ≠ snipB2.hash ∧
    calculateSimHashSimilarity snipB1.simHash snipB2.simHash = some (23/25) ∧
    calculateShingleSimilarity defaultConfig.kGramSize snipB1.normalizedContent
      snipB2.normalizedContent = some 1 ∧
    calculateEditDistanceSimilarity snipB1.normalizedContent snipB2.normalizedContent = some 1 ∧
    calculateSimilarity defaultConfig snipB1 snipB2 = some (23/25) ∧
    (23/25 : ℚ) ≠ 2/5 * 0 + 3/10 * (23/25) + 1/5 * 1 + 1/10 * 1 ∧
    ¬ ((23/25 : ℚ) < defaultConfig.minSimilarity) ∧
    (findDuplicates defaultConfig [snipB1, snipB2]).map
      (fun g => g.snippets.map (fun s => s.id)) = [["a1", "b1"]] := by
  refine ⟨by decide, by decide, by decide, by decide, by decide, by norm_num, by decide, by decide⟩

/-- C1 (amended): full mode is not a fixed weighted sum but the cascade;
in particular a pair with no hash match whose fingerprint similarity
exceeds 0.9 gets exactly that fingerprint similarity as its score, and the
Scenario-B pair (fingerprint similarity 0.92) scores 0.92 ≥ 0.8 and IS
grouped by `findDuplicates`. -/
theorem c1_theorem :
    (∀ s1 s2 : CodeSnippet, s1.hash ≠ s2.hash →
      jgt (calculateSimHashSimilarity s1.simHash s2.simHash) (some (9/10)) = true →
      calculateSimilarity defaultConfig s1 s2 =
        calculateSimHashSimilarity s1.simHash s2.simHash) ∧
    calculateSimilarity defaultConfig snipB1 snipB2 = some (23/25) ∧
    jge (calculateSimilarity defaultConfig snipB1 snipB2) (some defaultConfig.minSimilarity) =
      true ∧
    (findDuplicates defaultConfig [snipB1, snipB2]).map
      (fun g => g.snippets.map (fun s => s.id)) = [["a1", "b1"]] := by
  refine ⟨?_, by decide, by decide, by decide⟩
  intro s1 s2 hh hgt
  simp only [calculateSimilarity, if_neg hh, hgt, if_true]

/-- C1 witness: instantiating the `> 0.9` early-return clause at the
Scenario-B pair. -/
theorem c1_witness :
    calculateSimilarity defaultConfig snipB1 snipB2 =
      calculateSimHashSimilarity snipB1.simHash snipB2.simHash :=
  c1_theorem.1 snipB1 snipB2 (by decide) (by decide)

/-! ## C2: the partition invariant fails -/

/-- C2 failing input: three same-category fragments where
`score(P1,P2) = 0.2`, `score(P1,P3) = 0.8` and `score(P2,P3) = 0.8`.
`findDuplicates` returns TWO groups, `{P1, P3}` and `{P2, P3}`: fragment
`P3` appears in both, because the candidate scan of a later anchor (`P2`)
does not consult the processed set.  This violates the partition
invariant the specification states. -/
theorem c2_failing :
    calculateSimilarity defaultConfig snipP1 snipP2 = some (1/5) ∧
    calculateSimilarity defaultConfig snipP1 snipP3 = some (4/5) ∧
    calculateSimilarity defaultConfig snipP2 snipP3 = some (4/5) ∧
    (findDuplicates defaultConfig [snipP1, snipP2, snipP3]).map
      (fun g => g.snippets.map (fun s => s.id)) = [["a2", "c2"], ["b2", "c2"]] ∧
    (findDuplicates defaultConfig [snipP1, snipP2, snipP3]).countP
      (fun g => decide (snipP3 ∈ g.snippets)) = 2 := by
  refine ⟨by decide, by decide, by decide, by decide, by decide⟩

/-! ## C8: the clustering threshold is inclusive -/

/-- C8: a candidate whose similarity score equals `minSimilarity` exactly
joins the anchor's group — the membership test in `findSimilarSnippets`
is `similarity >= this.minSimilarity`, not a strict `>`. -/
theorem c8_theorem (cfg : Config) (target c : CodeSnippet)
    (htype : c.type = target.type) (hid : c.id ≠ target.id)
    (hfp : c.filePath ≠ target.filePath)
    (hscore : calculateSimilarity cfg target c = some cfg.minSimilarity) :
    ∃ g, findSimilarSnippets cfg target [target, c] 0 = some g ∧
      g.snippets = [target, c] := by
  have hge : jge (calculateSimilarity cfg target c) (some cfg.minSimilarity) = true := by
    rw [hscore]
    simp [jge]
  have hst : ([target, c].drop 1).foldl
      (scanStep (calculateSimilarity cfg) cfg.minSimilarity target) ([target], some 1) =
      ([target, c], jadd (some 1) (calculateSimilarity cfg target c)) := by
    simp only [List.drop_succ_cons, List.drop_zero, List.foldl_cons, List.foldl_nil]
    rw [scanStep_accept _ _ _ _ _ htype hid hfp hge]
    rfl
  refine ⟨{ id := "group-" ++ target.id
            snippets := [target, c]
            similarity := jdiv (jadd (some 1) (calculateSimilarity cfg target c))
              (some (([target, c].length : ℕ) : ℚ))
            reuseScore := calculateReuseScore [target, c]
              (jdiv (jadd (some 1) (calculateSimilarity cfg target c))
                (some (([target, c].length : ℕ) : ℚ)))
            suggestion := generateSuggestion [target, c]
              (jdiv (jadd (some 1) (calculateSimilarity cfg target c))
                (some (([target, c].length : ℕ) : ℚ))) }, ?_, rfl⟩
  unfold findSimilarSnippets findSimilarSnippetsWith
  rw [hst, if_neg (by norm_num)]

/-- C8 witness: with `minSimilarity = 0.95`, a candidate scoring exactly
`19/20` joins the anchor's group. -/
theorem c8_witness :
    ∃ g, findSimilarSnippets thresholdConfig snipT1 [snipT1, snipT2] 0 = some g ∧
      g.snippets = [snipT1, snipT2] :=
  c8_theorem thresholdConfig snipT1 snipT2 rfl (by decide) (by decide) (by decide)

/-! ## C5: anchor-relative clustering (Scenario C) -/

/-- C5: for same-category fragments `A`, `B`, `C` in input order with
`score(A,B) = 0.9`, `score(B,C) = 0.9`, `score(A,C) = 0.5` and
`minSimilarity = 0.8`, the optimized clustering returns exactly the group
`{A, B}` with `A` as its first member; `C` is compared only against the
anchor `A` (the hypothesis on `score B C` is never used — any value gives
the same result), remains an ungrouped singleton, and is dropped.  The
clustering is stated over an arbitrary pairwise scorer because no
constraint ties the scorer here; `findSimilarSnippetsOptimized` is the
instantiation at `calculateSimilarity`. -/
theorem c5_theorem (score : CodeSnippet → CodeSnippet → JsNum) (A B C : CodeSnippet)
    (htB : B.type = A.type) (htC : C.type = A.type)
    (hidBA : B.id ≠ A.id) (hidCA : C.id ≠ A.id) (hidCB : C.id ≠ B.id)
    (hfpBA : B.filePath ≠ A.filePath) (hfpCA : C.filePath ≠ A.filePath)
    (hAB : score A B = some (9/10)) (hBC : score B C = some (9/10))
    (hAC : score A C = some (1/2)) :
    findSimilarSnippetsOptimizedWith score (4/5) [A, B, C] = [anchorGroup A B] := by
  have hgeAB : jge (score A B) (some (4/5)) = true := by
    rw [hAB]; decide
  have hgeAC : jge (score A C) (some (4/5)) = false := by
    rw [hAC]; decide
  have hscan : ([A, B, C].drop 1).foldl (scanStep score (4/5) A) ([A], some 1) =
      ([A, B], jadd (some 1) (score A B)) := by
    simp only [List.drop_succ_cons, List.drop_zero, List.foldl_cons, List.foldl_nil]
    rw [scanStep_accept _ _ _ _ _ htB hidBA hfpBA hgeAB,
      scanStep_reject _ _ _ _ _ htC hidCA hfpCA hgeAC]
    rfl
  have hsimAB : jadd (some 1) (score A B) = some (19/10) := by
    rw [hAB]; decide
  have hfssA : findSimilarSnippetsWith score (4/5) A [A, B, C] 0 = some (anchorGroup A B) := by
    unfold findSimilarSnippetsWith
    rw [hscan, hsimAB, if_neg (by norm_num)]
    norm_num [jdiv, anchorGroup]
  have hfssC : findSimilarSnippetsWith score (4/5) C [A, B, C] 2 = none := rfl
  have hdedup : dedupById [A, B] = [A, B] := by
    simp only [dedupById, dedupByIdAux]
    rw [if_neg (List.not_mem_nil A.id), if_neg (by simp [hidBA])]
  have h0 : fssOptStep score (4/5) [A, B, C] ([], []) 0 =
      ([anchorGroup A B], [A.id, B.id]) := by
    simp only [fssOptStep, List.getElem?_cons_zero, List.not_mem_nil, if_false, hfssA,
      anchorGroup, hdedup]
    norm_num [hdedup, anchorGroup]
  have h1 : fssOptStep score (4/5) [A, B, C] ([anchorGroup A B], [A.id, B.id]) 1 =
      ([anchorGroup A B], [A.id, B.id]) := by
    simp only [fssOptStep, List.getElem?_cons_succ, List.getElem?_cons_zero]
    rw [if_pos (by simp)]
  have h2 : fssOptStep score (4/5) [A, B, C] ([anchorGroup A B], [A.id, B.id]) 2 =
      ([anchorGroup A B], [A.id, B.id]) := by
    simp only [fssOptStep, List.getElem?_cons_succ, List.getElem?_cons_zero]
    rw [if_neg (by simp [hidCA, hidCB]), hfssC]
  show (([0, 1, 2].foldl (fssOptStep score (4/5) [A, B, C]) ([], []))).1 = [anchorGroup A B]
  simp only [List.foldl_cons, List.foldl_nil, h0, h1, h2]

/-- C5 witness: the concrete scorer `anchorScore` realizes the score
table, and the three concrete fragments cluster to exactly `{A, B}`. -/
theorem c5_witness :
    findSimilarSnippetsOptimizedWith anchorScore (4/5) [snipC1, snipC2, snipC3] =
      [anchorGroup snipC1 snipC2] :=
  c5_theorem anchorScore snipC1 snipC2 snipC3 rfl rfl (by decide) (by decide) (by decide)
    (by decide) (by decide) (by decide) (by decide) (by decide)

/-! ## C10: symmetry of the pairwise score -/

/-- Levenshtein distance to the empty list (unit costs) is the length. -/
theorem lev_nil_left (ys : List Char) :
    levenshtein Levenshtein.defaultCost ([] : List Char) ys = ys.length := by
  induction ys with
  | nil => simp
  | cons y ys ih => simp [ih, Nat.add_comm]

/-- Levenshtein distance from the empty list (unit costs) is the length. -/
theorem lev_nil_right (xs : List Char) :
    levenshtein Levenshtein.defaultCost xs ([] : List Char) = xs.length := by
  induction xs with
  | nil => simp
  | cons x xs ih => simp [ih, Nat.add_comm]

/-- Unit-cost Levenshtein distance is symmetric. -/
theorem lev_symm (xs ys : List Char) :
    levenshtein Levenshtein.defaultCost xs ys = levenshtein Levenshtein.defaultCost ys xs := by
  induction xs generalizing ys with
  | nil => rw [lev_nil_left, lev_nil_right]
  | cons x xs ihx =>
    induction ys with
    | nil => rw [lev_nil_left, lev_nil_right]
    | cons y ys ihy =>
      rw [levenshtein_cons_cons, levenshtein_cons_cons, ihx (y :: ys), ihx ys, ihy]
      simp only [Levenshtein.defaultCost_delete, Levenshtein.defaultCost_insert,
        Levenshtein.defaultCost_substitute]
      rw [show (if x = y then 0 else 1) = (if y = x then 0 else 1) from by
        by_cases h : x = y
        · simp [h]
        · simp [h, show ¬ (y = x) from fun hh => h hh.symm]]
      omega

/-- The Hamming-style position count of the fingerprint comparison is
symmetric. -/
theorem simHashDistance_comm (hash1 hash2 : String) :
    simHashDistance hash1 hash2 = simHashDistance hash2 hash1 := by
  unfold simHashDistance
  rw [Nat.max_comm]
  congr 1
  apply List.filter_congr
  intro i _
  exact decide_eq_decide.mpr ne_comm

/-- `calculateSimHashSimilarity` is symmetric. -/
theorem calculateSimHashSimilarity_comm (hash1 hash2 : String) :
    calculateSimHashSimilarity hash1 hash2 = calculateSimHashSimilarity hash2 hash1 := by
  unfold calculateSimHashSimilarity
  rw [simHashDistance_comm, Nat.max_comm]

/-- `calculateShingleSimilarity` is symmetric: the length-ratio guard, the
intersection count and the union size are each symmetric. -/
theorem calculateShingleSimilarity_comm (k : ℕ) (c1 c2 : String) :
    calculateShingleSimilarity k c1 c2 = calculateShingleSimilarity k c2 c1 := by
  simp only [calculateShingleSimilarity]
  rw [show ((c1.length : ℤ) - (c2.length : ℤ)).natAbs =
        ((c2.length : ℤ) - (c1.length : ℤ)).natAbs from by omega,
    Nat.max_comm c1.length c2.length,
    show (generateShingles k c1 ∩ generateShingles k c2).card =
        (generateShingles k c2 ∩ generateShingles k c1).card from by rw [Finset.inter_comm],
    Nat.add_comm (generateShingles k c1).card (generateShingles k c2).card]

/-- `calculateEditDistanceSimilarity` is symmetric. -/
theorem calculateEditDistanceSimilarity_comm (c1 c2 : String) :
    calculateEditDistanceSimilarity c1 c2 = calculateEditDistanceSimilarity c2 c1 := by
  unfold calculateEditDistanceSimilarity levenshteinDistance
  rw [lev_symm, Nat.max_comm]

/-- C10: the pairwise similarity score is symmetric, in both full and fast
mode — hash equality, the Hamming-style fingerprint comparison, the
Jaccard shingle similarity and the Levenshtein edit-distance similarity
are each symmetric, and every branch condition of the cascade depends only
on these symmetric values. -/
theorem c10_theorem (cfg : Config) (a b : CodeSnippet) :
    calculateSimilarity cfg a b = calculateSimilarity cfg b a := by
  by_cases h : a.hash = b.hash
  · simp only [calculateSimilarity, if_pos h, if_pos h.symm]
  · simp only [calculateSimilarity, if_neg h,
      if_neg (show ¬ (b.hash = a.hash) from fun hh => h hh.symm)]
    rw [calculateSimHashSimilarity_comm b.simHash a.simHash,
      calculateShingleSimilarity_comm cfg.kGramSize b.normalizedContent a.normalizedContent,
      calculateEditDistanceSimilarity_comm b.normalizedContent a.normalizedContent]

/-! ## Generic lemmas about the accumulating folds of the grouper -/

/-- Groups already accumulated persist through a fold whose step never
removes groups. -/
theorem foldl_groups_mono {α : Type} (step : (List DuplicateGroup × List String) → α →
      (List DuplicateGroup × List String))
    (hstep : ∀ st x g, g ∈ st.1 → g ∈ (step st x).1) (l : List α) :
    ∀ (st : List DuplicateGroup × List String) (g : DuplicateGroup),
      g ∈ st.1 → g ∈ (l.foldl step st).1 := by
  induction l with
  | nil => exact fun st g hg => hg
  | cons x l ih => exact fun st g hg => ih _ _ (hstep st x g hg)

/-- Every group accumulated by a fold was either there initially or
satisfies the per-step production property. -/
theorem foldl_groups_invariant {α : Type} (P : DuplicateGroup → Prop)
    (step : (List DuplicateGroup × List String) → α → (List DuplicateGroup × List String)) :
    ∀ (l : List α), (∀ st x, x ∈ l → ∀ g ∈ (step st x).1, g ∈ st.1 ∨ P g) →
      ∀ st, ∀ g ∈ (l.foldl step st).1, g ∈ st.1 ∨ P g := by
  intro l
  induction l with
  | nil => exact fun _ st g hg => Or.inl hg
  | cons x l ih =>
    intro hstep st g hg
    rcases ih (fun st y hy => hstep st y (List.mem_cons_of_mem _ hy)) (step st x) g hg with
      h | h
    · exact hstep st x (List.mem_cons_self _ _) g h
    · exact Or.inr h

/-- A group that a monotone step always pushes when processing `x ∈ l`
ends up in the fold's result. -/
theorem foldl_groups_push {α : Type} (step : (List DuplicateGroup × List String) → α →
      (List DuplicateGroup × List String))
    (hmono : ∀ st x g, g ∈ st.1 → g ∈ (step st x).1)
    (l : List α) (x : α) (hx : x ∈ l) (g : DuplicateGroup)
    (hpush : ∀ st, g ∈ (step st x).1) :
    ∀ st, g ∈ (l.foldl step st).1 := by
  intro st
  obtain ⟨l1, l2, rfl⟩ := List.append_of_mem hx
  rw [List.foldl_append, List.foldl_cons]
  exact foldl_groups_mono step hmono l2 _ g (hpush _)

/-! ## The JS-Map grouping fold -/

/-- Invariant of the `Map`-grouping fold: processing `l` on top of an
accumulator faithful to an already-processed prefix `done` yields an
accumulator faithful to `done ++ l` — keys are pairwise distinct, each
bucket is exactly the key-filter of the processed snippets, and every
processed snippet's key owns a bucket. -/
theorem groupByKey_invariant (key : CodeSnippet → String) :
    ∀ (l done : List CodeSnippet) (acc : List (String × List CodeSnippet)),
      (acc.map Prod.fst).Nodup →
      (∀ p ∈ acc, p.2 = done.filter (fun s => key s = p.1)) →
      (∀ x ∈ done, ∃ p ∈ acc, p.1 = key x) →
      ((l.foldl (insertGrouped key) acc).map Prod.fst).Nodup ∧
      (∀ p ∈ l.foldl (insertGrouped key) acc,
        p.2 = (done ++ l).filter (fun s => key s = p.1)) ∧
      (∀ x ∈ done ++ l, ∃ p ∈ l.foldl (insertGrouped key) acc, p.1 = key x) := by
  intro l
  induction l with
  | nil =>
    intro done acc h1 h2 h3
    refine ⟨h1, ?_, ?_⟩
    · simpa using h2
    · simpa using h3
  | cons s l ih =>
    intro done acc h1 h2 h3
    have step1 : ((insertGrouped key acc s).map Prod.fst).Nodup := by
      unfold insertGrouped
      split
      · have : (acc.map (fun p => if p.1 = key s then (p.1, p.2 ++ [s]) else p)).map Prod.fst =
            acc.map Prod.fst := by
          rw [List.map_map]
          apply List.map_congr_left
          intro p _
          by_cases hp : p.1 = key s <;> simp [hp]
        rw [this]
        exact h1
      · next hany =>
        rw [List.map_append]
        rw [List.nodup_append]
        refine ⟨h1, by simp, ?_⟩
        intro k hk
        simp only [List.map_cons, List.map_nil, List.mem_singleton]
        intro hkeq
        obtain ⟨p, hp, hpk⟩ := List.mem_map.mp hk
        exact hany (List.any_eq_true.mpr ⟨p, hp, by simp [hpk, hkeq]⟩)
    have step2 : ∀ p ∈ insertGrouped key acc s,
        p.2 = (done ++ [s]).filter (fun t => key t = p.1) := by
      unfold insertGrouped
      split
      · intro p hp
        obtain ⟨q, hq, hqp⟩ := List.mem_map.mp hp
        by_cases hqk : q.1 = key s
        · rw [if_pos hqk] at hqp
          subst hqp
          simp only [List.filter_append]
          rw [← h2 q hq]
          simp [hqk]
        · rw [if_neg hqk] at hqp
          subst hqp
          simp only [List.filter_append]
          rw [← h2 q hq]
          simp [show ¬ (key s = q.1) from fun h => hqk h.symm]
      · next hany =>
        intro p hp
        rcases List.mem_append.mp hp with hold | hnew
        · have hk : ¬ (key s = p.1) := by
            intro hkeq
            exact hany (List.any_eq_true.mpr ⟨p, hold, by simp [hkeq]⟩)
          simp only [List.filter_append]
          rw [← h2 p hold]
          simp [hk]
        · have hpeq : p = (key s, [s]) := List.mem_singleton.mp hnew
          subst hpeq
          simp only [List.filter_append]
          have hdone : done.filter (fun t => key t = key s) = [] := by
            rw [List.filter_eq_nil_iff]
            intro t ht
            simp only [decide_eq_true_eq]
            intro hts
            obtain ⟨q, hq, hqk⟩ := h3 t ht
            exact hany (List.any_eq_true.mpr ⟨q, hq, by simp [hqk, hts]⟩)
          simp [hdone]
    have step3 : ∀ x ∈ done ++ [s], ∃ p ∈ insertGrouped key acc s, p.1 = key x := by
      intro x hx
      unfold insertGrouped
      rcases List.mem_append.mp hx with hold | hnew
      · obtain ⟨q, hq, hqk⟩ := h3 x hold
        split
        · refine ⟨(if q.1 = key s then (q.1, q.2 ++ [s]) else q), List.mem_map_of_mem _ hq, ?_⟩
          by_cases hqs : q.1 = key s
          · simp only [if_pos hqs]
            exact hqk
          · simp only [if_neg hqs]
            exact hqk
        · exact ⟨q, List.mem_append_left _ hq, hqk⟩
      · have hxs : x = s := List.mem_singleton.mp hnew
        rw [hxs]
        split
        · next hany =>
          obtain ⟨q, hq, hqk⟩ := List.any_eq_true.mp hany
          refine ⟨(q.1, q.2 ++ [s]), ?_, by simpa using hqk⟩
          have : (q.1, q.2 ++ [s]) = if q.1 = key s then (q.1, q.2 ++ [s]) else q := by
            simp [show q.1 = key s by simpa using hqk]
          rw [this]
          exact List.mem_map_of_mem _ hq
        · exact ⟨(key s, [s]), List.mem_append_right _ (List.mem_singleton_self _), rfl⟩
    have := ih (done ++ [s]) (insertGrouped key acc s) step1 step2 step3
    simpa [List.append_assoc] using this

/-- Each bucket of `groupByKey` is the key-filter of the input list. -/
theorem groupByKey_buckets (key : CodeSnippet → String) (l : List CodeSnippet) :
    ∀ p ∈ groupByKey key l, p.2 = l.filter (fun s => key s = p.1) := by
  have := groupByKey_invariant key l [] [] (by simp) (by simp) (by simp)
  simpa [groupByKey] using this.2.1

/-- Every input snippet's key owns a bucket of `groupByKey`. -/
theorem groupByKey_complete (key : CodeSnippet → String) (l : List CodeSnippet) :
    ∀ x ∈ l, ∃ p ∈ groupByKey key l, p.1 = key x := by
  have := groupByKey_invariant key l [] [] (by simp) (by simp) (by simp)
  simpa [groupByKey] using this.2.2

/-! ## The final sort -/

/-- Membership is preserved by the stable insertion. -/
theorem mem_insertSorted (g h : DuplicateGroup) :
    ∀ l : List DuplicateGroup, g ∈ insertSorted h l ↔ g = h ∨ g ∈ l := by
  intro l
  induction l with
  | nil => simp [insertSorted]
  | cons a t ih =>
    simp only [insertSorted]
    split
    · simp
    · simp only [List.mem_cons, ih]
      tauto

/-- Membership is preserved by the final reuse-score sort. -/
theorem mem_sortByReuseScore (g : DuplicateGroup) :
    ∀ l : List DuplicateGroup, g ∈ sortByReuseScore l ↔ g ∈ l := by
  intro l
  induction l with
  | nil => simp [sortByReuseScore]
  | cons a t ih =>
    show g ∈ insertSorted a (sortByReuseScore t) ↔ _
    rw [mem_insertSorted, ih]
    simp

/-- A list containing two distinct elements has length at least 2. -/
theorem one_lt_length_of_two_mem {a b : CodeSnippet} {l : List CodeSnippet}
    (ha : a ∈ l) (hb : b ∈ l) (hab : a ≠ b) : 1 < l.length := by
  cases l with
  | nil => simp at ha
  | cons x t =>
    cases t with
    | nil =>
      simp only [List.mem_singleton] at ha hb
      exact absurd (ha.trans hb.symm) hab
    | cons y u =>
      simp only [List.length_cons]
      omega

/-! ## Structure of the candidate scan and of the produced groups -/

/-- Each scan step either skips the candidate or accepts it. -/
theorem scanStep_cases (score : CodeSnippet → CodeSnippet → JsNum) (m : ℚ)
    (target s : CodeSnippet) (st : List CodeSnippet × JsNum) :
    scanStep score m target st s = st ∨
    scanStep score m target st s = (st.1 ++ [s], jadd st.2 (score target s)) := by
  simp only [scanStep]
  repeat' first
    | exact Or.inl rfl
    | exact Or.inr rfl
    | split

/-- The candidate scan appends an (order-preserving) selection of the
scanned list to the member accumulator, and totals exactly the selected
candidates' scores. -/
theorem scanFold_structure (score : CodeSnippet → CodeSnippet → JsNum) (m : ℚ)
    (target : CodeSnippet) :
    ∀ (l : List CodeSnippet) (st : List CodeSnippet × JsNum),
      ∃ acc, acc.Sublist l ∧
        (l.foldl (scanStep score m target) st).1 = st.1 ++ acc ∧
        (l.foldl (scanStep score m target) st).2 =
          acc.foldl (fun t s => jadd t (score target s)) st.2 := by
  intro l
  induction l with
  | nil =>
    intro st
    exact ⟨[], List.nil_sublist _, (List.append_nil _).symm, rfl⟩
  | cons s l ih =>
    intro st
    rcases scanStep_cases score m target s st with h | h
    · obtain ⟨acc, hsub, h1, h2⟩ := ih (scanStep score m target st s)
      refine ⟨acc, hsub.cons _, ?_, ?_⟩
      · rw [List.foldl_cons] at *
        rw [h1, h]
      · rw [List.foldl_cons] at *
        rw [h2, h]
    · obtain ⟨acc, hsub, h1, h2⟩ := ih (scanStep score m target st s)
      refine ⟨s :: acc, hsub.cons₂ _, ?_, ?_⟩
      · rw [List.foldl_cons, h1, h]
        simp
      · rw [List.foldl_cons, h2, h]
        rfl

/-- Characterization of a non-null `findSimilarSnippets` result: the
members are the anchor followed by an order-preserving selection of the
scanned tail, there are at least two members, the aggregate similarity is
`(1.0 + Σ accepted scores) / memberCount`, and the reuse score is
`calculateReuseScore` of exactly the stored members and similarity. -/
theorem fssWith_eq_some (score : CodeSnippet → CodeSnippet → JsNum) (m : ℚ)
    (target : CodeSnippet) (all : List CodeSnippet) (i : ℕ) (g : DuplicateGroup)
    (h : findSimilarSnippetsWith score m target all i = some g) :
    ∃ acc, acc.Sublist (all.drop (i + 1)) ∧
      g.snippets = target :: acc ∧ 1 < g.snippets.length ∧
      g.similarity = jdiv (acc.foldl (fun t s => jadd t (score target s)) (some 1))
        (some (g.snippets.length : ℚ)) ∧
      g.reuseScore = calculateReuseScore g.snippets g.similarity := by
  obtain ⟨acc, hsub, h1, h2⟩ :=
    scanFold_structure score m target (all.drop (i + 1)) ([target], some 1)
  simp only [findSimilarSnippetsWith] at h
  rw [h1, h2] at h
  split at h
  · exact absurd h (by simp)
  · next hlen =>
    have hg := (Option.some.injEq _ _).mp h
    subst hg
    exact ⟨acc, hsub, rfl, Nat.lt_of_not_le hlen, rfl, rfl⟩

/-- The defensive id-dedup is the identity on lists with pairwise
distinct ids. -/
theorem dedupByIdAux_eq_self :
    ∀ (l : List CodeSnippet) (seen : List String),
      (l.map (fun s => s.id)).Nodup → (∀ s ∈ l, s.id ∉ seen) →
      dedupByIdAux l seen = l := by
  intro l
  induction l with
  | nil => intro seen _ _; rfl
  | cons s l ih =>
    intro seen h1 h2
    rw [List.map_cons] at h1
    have h1' := List.nodup_cons.mp h1
    unfold dedupByIdAux
    rw [if_neg (h2 s (List.mem_cons_self _ _))]
    congr 1
    apply ih
    · exact h1'.2
    · intro t ht hmem
      rcases List.mem_cons.mp hmem with h | h
      · refine h1'.1 ?_
        rw [← h]
        exact List.mem_map_of_mem _ ht
      · exact h2 t (List.mem_cons_of_mem _ ht) h

/-- The defensive id-dedup of `findSimilarSnippetsOptimized` is the
identity on lists with pairwise distinct ids. -/
theorem dedupById_eq_self (l : List CodeSnippet) (h : (l.map (fun s => s.id)).Nodup) :
    dedupById l = l :=
  dedupByIdAux_eq_self l [] h (by simp)

/-- The reuse-score formula invariant: a group's stored `reuseScore` is
`calculateReuseScore` of its own stored members and similarity. -/
def ReuseOk (g : DuplicateGroup) : Prop :=
  g.reuseScore = calculateReuseScore g.snippets g.similarity

/-- Every group produced by a step of the optimized clustering loop (over
an id-distinct snippet list) satisfies the reuse-score formula. -/
theorem fssOptStep_provenance (score : CodeSnippet → CodeSnippet → JsNum) (m : ℚ)
    (snippets : List CodeSnippet) (hnd : (snippets.map (fun s => s.id)).Nodup)
    (st : List DuplicateGroup × List String) (i : ℕ) :
    ∀ g ∈ (fssOptStep score m snippets st i).1, g ∈ st.1 ∨ ReuseOk g := by
  intro g hg
  simp only [fssOptStep] at hg
  split at hg
  · exact Or.inl hg
  · next si hsi =>
    split at hg
    · exact Or.inl hg
    · split at hg
      · exact Or.inl hg
      · next group hfss =>
        split at hg
        · split at hg
          · rcases List.mem_append.mp hg with h | h
            · exact Or.inl h
            · right
              obtain ⟨acc, hsub, hsnip, hlen, hsim, hreuse⟩ :=
                fssWith_eq_some score m si snippets i group hfss
              have hilt : i < snippets.length := by
                by_contra hcon
                rw [List.getElem?_eq_none (Nat.le_of_not_lt hcon)] at hsi
                exact absurd hsi (by simp)
              have hdrop : snippets.drop i = si :: snippets.drop (i + 1) := by
                rw [List.drop_eq_getElem_cons hilt]
                congr
                have hget := List.getElem?_eq_getElem hilt
                rw [hget] at hsi
                exact (Option.some.injEq _ _).mp hsi
              have hnd2 : (group.snippets.map (fun s => s.id)).Nodup := by
                rw [hsnip]
                have hsub2 : (si :: acc).Sublist snippets := by
                  have h5 : (si :: acc).Sublist (snippets.drop i) := by
                    rw [hdrop]
                    exact hsub.cons₂ si
                  exact h5.trans (List.drop_sublist i snippets)
                exact hnd.sublist (hsub2.map (fun s => s.id))
              have hded : dedupById group.snippets = group.snippets :=
                dedupById_eq_self _ hnd2
              have hgeq : g = { group with snippets := dedupById group.snippets } :=
                List.mem_singleton.mp h
              rw [hded] at hgeq
              rw [hgeq]
              exact hreuse
          · exact Or.inl hg
        · exact Or.inl hg

/-- Every group returned by the optimized clustering over an id-distinct
snippet list satisfies the reuse-score formula. -/
theorem fssOptWith_provenance (score : CodeSnippet → CodeSnippet → JsNum) (m : ℚ)
    (snippets : List CodeSnippet) (hnd : (snippets.map (fun s => s.id)).Nodup) :
    ∀ g ∈ findSimilarSnippetsOptimizedWith score m snippets, ReuseOk g := by
  intro g hg
  unfold findSimilarSnippetsOptimizedWith at hg
  rcases foldl_groups_invariant ReuseOk (fssOptStep score m snippets)
      (List.range snippets.length)
      (fun st i _ => fssOptStep_provenance score m snippets hnd st i) ([], []) g hg with
    h | h
  · exact absurd h (by simp)
  · exact h

/-- A group pushed by the hash-bucket phase is a `createDuplicateGroup`,
which satisfies the reuse-score formula by construction. -/
theorem pushHashGroup_provenance (st : List DuplicateGroup × List String)
    (p : String × List CodeSnippet) :
    ∀ g ∈ (pushHashGroup st p).1, g ∈ st.1 ∨ ReuseOk g := by
  intro g hg
  unfold pushHashGroup at hg
  split at hg
  · rcases List.mem_append.mp hg with h | h
    · exact Or.inl h
    · right
      rw [List.mem_singleton.mp h]
      rfl
  · exact Or.inl hg

/-- The hash-bucket phase never removes groups. -/
theorem pushHashGroup_mono (st : List DuplicateGroup × List String)
    (p : String × List CodeSnippet) :
    ∀ g ∈ st.1, g ∈ (pushHashGroup st p).1 := by
  intro g hg
  unfold pushHashGroup
  split
  · exact List.mem_append_left _ hg
  · exact hg

/-- The per-type phase never removes groups. -/
theorem processType_mono (cfg : Config) (st : List DuplicateGroup × List String)
    (p : String × List CodeSnippet) :
    ∀ g ∈ st.1, g ∈ (processType cfg st p).1 := by
  intro g hg
  simp only [processType]
  split
  · exact hg
  · have h1 : g ∈ ((groupByKey (fun s => s.hash) p.2).foldl pushHashGroup st).1 :=
      foldl_groups_mono pushHashGroup pushHashGroup_mono _ st g hg
    split
    · exact List.mem_append_left _ h1
    · exact h1

/-- Every group added by the per-type phase (over an id-distinct bucket)
satisfies the reuse-score formula. -/
theorem processType_provenance (cfg : Config) (st : List DuplicateGroup × List String)
    (p : String × List CodeSnippet) (hnd : (p.2.map (fun s => s.id)).Nodup) :
    ∀ g ∈ (processType cfg st p).1, g ∈ st.1 ∨ ReuseOk g := by
  intro g hg
  simp only [processType] at hg
  split at hg
  · exact Or.inl hg
  · have hhash : ∀ g ∈ ((groupByKey (fun s => s.hash) p.2).foldl pushHashGroup st).1,
        g ∈ st.1 ∨ ReuseOk g :=
      foldl_groups_invariant ReuseOk pushHashGroup _
        (fun st q _ => pushHashGroup_provenance st q) st
    split at hg
    · rcases List.mem_append.mp hg with h | h
      · exact hhash g h
      · right
        refine fssOptWith_provenance (calculateSimilarity cfg) cfg.minSimilarity _ ?_ g h
        have hsub : (p.2.filter (fun s =>
            !(((groupByKey (fun s => s.hash) p.2).foldl pushHashGroup st).2.contains
              s.id))).Sublist p.2 := List.filter_sublist _
        exact ((hsub.map (fun s => s.id)).nodup hnd)
    · exact hhash g hg

/-! ## C6: the reuse-score formula -/

/-- C6: (1) for every group returned by `findDuplicates` on an
id-distinct fragment list, the stored reuse score equals
`totalSizeChars × meanSimilarity × memberCount × meanChurnWeight`
computed over the group's own members and stored similarity; (2) for
anchor-clustered groups the stored similarity is
`(1.0 + Σ member-scores-against-the-anchor) / memberCount` with the
anchor as first member; (3) Scenario A: two identical 120-character
fragments with churn weight 1.0 form one hash-bucket group with
similarity 1.0 and reuse score `(120+120)·1.0·2·1.0 = 480`. -/
theorem c6_theorem :
    (∀ (cfg : Config) (l : List CodeSnippet), (l.map (fun s => s.id)).Nodup →
      ∀ g ∈ findDuplicates cfg l,
        g.reuseScore =
          jmul (jmul (jmul (some ((g.snippets.map (fun s => s.size)).sum)) g.similarity)
            (some (g.snippets.length : ℚ)))
            (jdiv (some ((g.snippets.map (fun s => s.churnWeight)).sum))
              (some (g.snippets.length : ℚ)))) ∧
    (∀ (score : CodeSnippet → CodeSnippet → JsNum) (m : ℚ) (target : CodeSnippet)
      (all : List CodeSnippet) (i : ℕ) (g : DuplicateGroup),
      findSimilarSnippetsWith score m target all i = some g →
      g.snippets.head? = some target ∧
      g.similarity = jdiv ((g.snippets.drop 1).foldl (fun t s => jadd t (score target s))
        (some 1)) (some (g.snippets.length : ℚ))) ∧
    (findDuplicates defaultConfig [snipA1, snipA2]).map
      (fun g => (g.snippets.map (fun s => s.id), g.similarity, g.reuseScore)) =
      [(["a6", "b6"], some 1, some 480)] := by
  refine ⟨?_, ?_, by decide⟩
  · intro cfg l hnd g hg
    have hro : ReuseOk g := by
      unfold findDuplicates at hg
      split at hg
      · exact absurd hg (by simp)
      · rw [mem_sortByReuseScore] at hg
        have hbuckets : ∀ x ∈ groupByKey (fun s => s.type) l,
            ((x.2).map (fun s => s.id)).Nodup := by
          intro x hx
          rw [groupByKey_buckets (fun s => s.type) l x hx]
          exact hnd.sublist ((List.filter_sublist _).map _)
        rcases foldl_groups_invariant ReuseOk (processType cfg)
            (groupByKey (fun s => s.type) l)
            (fun st x hx => processType_provenance cfg st x (hbuckets x hx)) ([], []) g hg with
          h | h
        · exact absurd h (by simp)
        · exact h
    exact hro
  · intro score m target all i g h
    obtain ⟨acc, hsub, hsnip, hlen, hsim, hreuse⟩ := fssWith_eq_some score m target all i g h
    constructor
    · rw [hsnip]
      rfl
    · rw [hsim, hsnip]
      simp

/-- C6 witness: the Scenario-A hash-bucket group is returned by
`findDuplicates` and satisfies the reuse-score formula. -/
theorem c6_witness :
    groupA ∈ findDuplicates defaultConfig [snipA1, snipA2] ∧
    groupA.reuseScore =
      jmul (jmul (jmul (some ((groupA.snippets.map (fun s => s.size)).sum)) groupA.similarity)
        (some (groupA.snippets.length : ℚ)))
        (jdiv (some ((groupA.snippets.map (fun s => s.churnWeight)).sum))
          (some (groupA.snippets.length : ℚ))) :=
  ⟨by decide, c6_theorem.1 defaultConfig [snipA1, snipA2] (by decide) groupA (by decide)⟩

/-! ## C7: the exact-match invariant -/

/-- C7: any two same-category fragments with equal content hash score
exactly 1.0 (the first branch of `calculateSimilarity`), and whenever
both appear in `findDuplicates`' input they end up together in a returned
group (their shared hash bucket has at least two members, so it is pushed
as a group containing both). -/
theorem c7_theorem :
    (∀ (cfg : Config) (s1 s2 : CodeSnippet), s1.hash = s2.hash →
      calculateSimilarity cfg s1 s2 = some 1) ∧
    (∀ (cfg : Config) (l : List CodeSnippet) (a b : CodeSnippet), a ∈ l → b ∈ l →
      a.type = b.type → a.hash = b.hash → a ≠ b →
      ∃ g ∈ findDuplicates cfg l, a ∈ g.snippets ∧ b ∈ g.snippets) := by
  constructor
  · intro cfg s1 s2 h
    simp only [calculateSimilarity, if_pos h]
  · intro cfg l a b ha hb htype hhash hab
    obtain ⟨p, hpmem, hp1⟩ := groupByKey_complete (fun s => s.type) l a ha
    have hp2 := groupByKey_buckets (fun s => s.type) l p hpmem
    have hain : a ∈ p.2 := by
      rw [hp2]
      refine List.mem_filter.mpr ⟨ha, ?_⟩
      simp [hp1]
    have hbin : b ∈ p.2 := by
      rw [hp2]
      refine List.mem_filter.mpr ⟨hb, ?_⟩
      simp [hp1, htype.symm]
    obtain ⟨q, hqmem, hq1⟩ := groupByKey_complete (fun s => s.hash) p.2 a hain
    have hq2 := groupByKey_buckets (fun s => s.hash) p.2 q hqmem
    have hain2 : a ∈ q.2 := by
      rw [hq2]
      refine List.mem_filter.mpr ⟨hain, ?_⟩
      simp [hq1]
    have hbin2 : b ∈ q.2 := by
      rw [hq2]
      refine List.mem_filter.mpr ⟨hbin, ?_⟩
      simp [hq1, hhash.symm]
    have hq2len : 1 < q.2.length := one_lt_length_of_two_mem hain2 hbin2 hab
    have hp2len : 1 < p.2.length := one_lt_length_of_two_mem hain hbin hab
    refine ⟨createDuplicateGroup q.2 (some 1), ?_, hain2, hbin2⟩
    have hGpush : ∀ st, createDuplicateGroup q.2 (some 1) ∈ (processType cfg st p).1 := by
      intro st
      simp only [processType]
      rw [if_neg (by omega)]
      have hst1 : createDuplicateGroup q.2 (some 1) ∈
          ((groupByKey (fun s => s.hash) p.2).foldl pushHashGroup st).1 := by
        refine foldl_groups_push pushHashGroup pushHashGroup_mono _ q hqmem _ ?_ st
        intro st'
        unfold pushHashGroup
        rw [if_pos hq2len]
        exact List.mem_append_right _ (List.mem_singleton_self _)
      split
      · exact List.mem_append_left _ hst1
      · exact hst1
    have hGfold : createDuplicateGroup q.2 (some 1) ∈
        ((groupByKey (fun s => s.type) l).foldl (processType cfg) ([], [])).1 :=
      foldl_groups_push (processType cfg) (processType_mono cfg) _ p hpmem _ hGpush ([], [])
    have hne : ¬ (l.length = 0) := by
      intro h0
      rw [List.length_eq_zero] at h0
      subst h0
      simp at ha
    unfold findDuplicates
    rw [if_neg hne]
    exact (mem_sortByReuseScore _ _).mpr hGfold

/-- C7 witness: a concrete equal-hash pair scores 1.0 and is grouped
together by `findDuplicates`. -/
theorem c7_witness :
    calculateSimilarity defaultConfig snipE1 snipE2 = some 1 ∧
    ∃ g ∈ findDuplicates defaultConfig [snipE1, snipE2],
      snipE1 ∈ g.snippets ∧ snipE2 ∈ g.snippets :=
  ⟨c7_theorem.1 defaultConfig snipE1 snipE2 rfl,
   c7_theorem.2 defaultConfig [snipE1, snipE2] snipE1 snipE2 (by decide) (by decide) rfl rfl
     (by decide)⟩

end ReuseFinder
